import Mathlib

/-!
Verification of the movie-dashboard data pipeline of `src/app.py`:
dataset normalization (filtering, comma splitting, cross-product explode,
whitespace stripping), aggregation into the CountrySummary and
CountryGenreCount tables, region-code resolution through the manual alias
table with registry fallback, and the popup update handler
`update_genre_popup`.  The two external capabilities the code calls into —
the pycountry registry and the numpy sort behind `sort_values` — are
modelled as function parameters (`pyc`, `sortDesc`).
-/

/-- ASCII whitespace characters recognized by Python's `str.strip` and by
the regex class in the split pattern. -/
def isPySpace (c : Char) : Bool :=
  c = ' ' || c = '\t' || c = '\n' || c = '\r' || c = '\x0b' || c = '\x0c'

/-- Worker for `re.split` on the pattern comma-then-optional-whitespace:
`acc` holds the characters of the current token reversed, and the flag
records whether we are still consuming the whitespace right after a
comma. -/
def splitCommaWsAux : List Char → List Char → Bool → List String
  | [], acc, _ => [String.mk acc.reverse]
  | c :: rest, acc, skipping =>
    if skipping && isPySpace c then splitCommaWsAux rest acc true
    else if c = ',' then String.mk acc.reverse :: splitCommaWsAux rest [] true
    else splitCommaWsAux rest (c :: acc) false

/-- `re.split(',\s*', s)`, as used by `.str.split(',\s*')` on both the
country and the genre column. -/
def splitCommaWs (s : String) : List String :=
  splitCommaWsAux s.data [] false

/-- Characters remaining after stripping leading and trailing Python
whitespace. -/
def stripChars (l : List Char) : List Char :=
  ((l.dropWhile isPySpace).reverse.dropWhile isPySpace).reverse

/-- Python's `str.strip()` (ASCII whitespace), as used by `.str.strip()`. -/
def pyStrip (s : String) : String :=
  String.mk (stripChars s.data)

/-- One raw CSV row; any of the three columns may be missing (pandas NaN). -/
structure RawRow where
  title : Option String
  production_countries : Option String
  genres : Option String
deriving DecidableEq

/-- One expanded record after the two `explode` calls: exactly one country;
the genre is still missing when the raw genre cell was NaN (splitting and
exploding a NaN leaves NaN in place). -/
structure MovieRecord where
  title : Option String
  production_countries : String
  genres : Option String
deriving DecidableEq

/-- The three row filters of `app.py` lines 22-24: drop the `'IPL 2025'`
sentinel title (a NaN title is kept, since in pandas `NaN != 'IPL 2025'`
holds), drop rows with a missing country cell, and drop rows whose country
cell strips to the empty string. -/
def keepRow (r : RawRow) : Bool :=
  (r.title != some "IPL 2025") &&
  (match r.production_countries with
   | none => false
   | some cs => pyStrip cs != "")

/-- Split both columns on comma-plus-whitespace, explode countries then
genres (full cross product, in row order), and strip each token — lines
26-30 of `app.py`, restricted to a single row. -/
def expandRow (r : RawRow) : List MovieRecord :=
  match r.production_countries with
  | none => []
  | some cs =>
    (splitCommaWs cs).flatMap fun c =>
      match r.genres with
      | none => [⟨r.title, pyStrip c, none⟩]
      | some gs => (splitCommaWs gs).map fun g => ⟨r.title, pyStrip c, some (pyStrip g)⟩

/-- The whole normalizer: filter the raw rows, then expand each survivor. -/
def normalizeRows (rows : List RawRow) : List MovieRecord :=
  (rows.filter keepRow).flatMap expandRow

/-- The manual alias table of `get_iso_alpha3_enhanced`, verbatim. -/
def manual_mapping : List (String × String) :=
  [("United States", "USA"), ("United States of America", "USA"),
   ("United Kingdom", "GBR"), ("UK", "GBR"),
   ("Russia", "RUS"), ("Russian Federation", "RUS"),
   ("South Korea", "KOR"), ("Korea, Republic of", "KOR"),
   ("North Korea", "PRK"), ("Korea, Democratic People\x27s Republic of", "PRK"),
   ("Czech Republic", "CZE"), ("Czechia", "CZE"),
   ("Iran", "IRN"), ("Iran, Islamic Republic of", "IRN"),
   ("Venezuela", "VEN"), ("Venezuela, Bolivarian Republic of", "VEN"),
   ("Bolivia", "BOL"), ("Bolivia, Plurinational State of", "BOL"),
   ("Taiwan", "TWN"), ("Taiwan, Province of China", "TWN"),
   ("Moldova", "MDA"), ("Moldova, Republic of", "MDA"),
   ("Vietnam", "VNM"), ("Viet Nam", "VNM"),
   ("Macedonia", "MKD"), ("North Macedonia", "MKD"),
   ("The Former Yugoslav Republic of Macedonia", "MKD")]

/-- Country name to ISO alpha-3 code: consult the manual table first, fall
back to the external pycountry registry `pyc` (which returns `none` where
the library raises, matching the bare `except: return None`). -/
def get_iso_alpha3_enhanced (pyc : String → Option String) (country_name : String) :
    Option String :=
  match manual_mapping.lookup country_name with
  | some code => some code
  | none => pyc country_name

/-- Lexicographic code-point comparison of character lists, the order in
which pandas sorts string group keys. -/
def charListLe : List Char → List Char → Bool
  | [], _ => true
  | _ :: _, [] => false
  | a :: as, b :: bs =>
    if a.toNat < b.toNat then true
    else if b.toNat < a.toNat then false
    else charListLe as bs

/-- Code-point order on strings (Boolean form). -/
def strLeB (a b : String) : Bool := charListLe a.data b.data

/-- Code-point order on strings, as a decidable relation for sorting. -/
def strLe (a b : String) : Prop := strLeB a b = true

instance : DecidableRel strLe := fun a b => inferInstanceAs (Decidable (strLeB a b = true))

/-- Lexicographic order on (country, genre) keys, the order of the
two-column groupby. -/
def pairLeB (p q : String × String) : Bool :=
  if p.1 == q.1 then strLeB p.2 q.2 else strLeB p.1 q.1

/-- Propositional form of `pairLeB`. -/
def pairLe (p q : String × String) : Prop := pairLeB p q = true

instance : DecidableRel pairLe := fun p q => inferInstanceAs (Decidable (pairLeB p q = true))

/-- One row of the CountryGenreCount table
(`df.groupby(['production_countries', 'genres']).size()`). -/
structure GenreCount where
  production_countries : String
  genres : String
  count : Nat
deriving DecidableEq

/-- The (country, genre) key of each expanded record that has a genre;
records with a NaN genre are dropped by the two-column groupby. -/
def genrePairs (recs : List MovieRecord) : List (String × String) :=
  recs.filterMap fun r => r.genres.map fun g => (r.production_countries, g)

/-- Distinct (country, genre) keys in the sorted order groupby emits. -/
def sortedGenreKeys (recs : List MovieRecord) : List (String × String) :=
  List.insertionSort pairLe (genrePairs recs).dedup

/-- The CountryGenreCount table: one row per distinct (country, genre) key
with the number of expanded records carrying that key. -/
def country_genre (recs : List MovieRecord) : List GenreCount :=
  (sortedGenreKeys recs).map fun p => ⟨p.1, p.2, (genrePairs recs).count p⟩

/-- One row of the CountrySummary table (before the log column, which is a
pure function of `movie_count`, see the C2 theorems). -/
structure SummaryRow where
  production_countries : String
  movie_count : Nat
  iso_alpha : String
deriving DecidableEq

/-- `agg(movie_count=('title', 'count'))` for one country group: pandas
`count` tallies the non-null titles of the group. -/
def movieCount (recs : List MovieRecord) (c : String) : Nat :=
  (recs.filter fun r => r.production_countries == c && r.title.isSome).length

/-- Distinct country names in the sorted order groupby emits. -/
def sortedCountries (recs : List MovieRecord) : List String :=
  List.insertionSort strLe (recs.map (·.production_countries)).dedup

/-- The CountrySummary table: group by country, count titles, resolve the
region code, and drop the rows whose resolution failed (`dropna`). -/
def summary (pyc : String → Option String) (recs : List MovieRecord) :
    List SummaryRow :=
  (sortedCountries recs).filterMap fun c =>
    (get_iso_alpha3_enhanced pyc c).map fun iso => ⟨c, movieCount recs c, iso⟩

/-- One entry of a click payload's `points` list. -/
structure Point where
  location : Option String
deriving DecidableEq

/-- The `clickData` payload: the `points` key may be absent. -/
structure ClickData where
  points : Option (List Point)
deriving DecidableEq

/-- A CSS style dictionary, as an association list (first binding wins). -/
structure Style where
  entries : List (String × String)
deriving DecidableEq

/-- Dictionary read. -/
def Style.get (s : Style) (k : String) : Option String := s.entries.lookup k

/-- Dictionary write on a (deep) copy: `updated_style[k] = v`. -/
def Style.set (s : Style) (k v : String) : Style :=
  ⟨(k, v) :: (s.entries.filter fun p => p.1 != k)⟩

/-- The initial `popup-container` style of the layout, substituted when the
incoming state is `None`. -/
def defaultStyle : Style :=
  ⟨[("position", "absolute"), ("top", "120px"), ("right", "40px"),
    ("width", "300px"), ("backgroundColor", "white"),
    ("boxShadow", "0 4px 8px rgba(0,0,0,0.2)"), ("padding", "10px"),
    ("borderRadius", "10px"), ("display", "none"), ("zIndex", "10")]⟩

/-- The figures `update_genre_popup` can build: the blank `px.bar(title="")`
of the hide paths, the "No data available for {country}" placeholder, and
the genre bar chart whose data is the top-genre table. -/
inductive Figure where
  | emptyBar : Figure
  | noDataBar (country : String) : Figure
  | genreBar (country : String) (data : List (String × Nat)) : Figure
deriving DecidableEq

/-- The country a figure is about, when any. -/
def figCountry : Figure → Option String
  | Figure.emptyBar => none
  | Figure.noDataBar c => some c
  | Figure.genreBar c _ => some c

/-- The (genre, count) rows backing a figure — the popup's top_genres. -/
def figTopGenres : Figure → List (String × Nat)
  | Figure.genreBar _ d => d
  | _ => []

/-- PopupState visibility: whether the style shows the panel. -/
def popupVisible (s : Style) : Bool := s.get "display" == some "block"

/-- Count-descending comparison on (genre, count) entries — the key order
of `sort_values(by='count', ascending=False)`. -/
def descRel (a b : String × Nat) : Prop := b.2 ≤ a.2

instance : DecidableRel descRel := fun a b => Nat.decLe b.2 a.2

/-- What `app.py` may assume of the numpy sort behind `sort_values`: the
output is a permutation of the input, sorted by count descending.  The
default kind is quicksort, so nothing about the order of tied entries is
guaranteed. -/
def SortValid (f : List (String × Nat) → List (String × Nat)) : Prop :=
  ∀ l, (f l).Perm l ∧ List.Sorted descRel (f l)

/-- `genre_data` of `update_genre_popup`: filter CountryGenreCount to one
country, group by genre summing counts (groupby emits genres in sorted
order), sort by count descending, keep the first ten rows. -/
def genreRowsFor (recs : List MovieRecord) (c : String) : List GenreCount :=
  (country_genre recs).filter fun gc => gc.production_countries == c

/-- The grouped-by-genre sums, in the genre order groupby emits. -/
def groupedGenres (recs : List MovieRecord) (c : String) : List (String × Nat) :=
  (List.insertionSort strLe ((genreRowsFor recs c).map (·.genres)).dedup).map
    fun g => (g, (((genreRowsFor recs c).filter fun gc => gc.genres == g).map (·.count)).sum)

/-- `genre_data`: descending sort then `.head(10)`. -/
def genreData (sortDesc : List (String × Nat) → List (String × Nat))
    (recs : List MovieRecord) (c : String) : List (String × Nat) :=
  (sortDesc (groupedGenres recs c)).take 10

/-- The `update_genre_popup` callback.  `closeTriggered` is whether
`ctx.triggered[0]['prop_id']` starts with `'close-button'`; each failure
path (missing payload, missing or empty points, missing location, region
code matching no summary row) returns the blank figure with the panel
hidden, exactly as the early returns and the bare `except` do. -/
def update_genre_popup (sortDesc : List (String × Nat) → List (String × Nat))
    (pyc : String → Option String) (recs : List MovieRecord)
    (closeTriggered : Bool) (clickData : Option ClickData)
    (current_style : Option Style) : Figure × Style :=
  let style := current_style.getD defaultStyle
  if closeTriggered then
    (Figure.emptyBar, style.set "display" "none")
  else
    match clickData with
    | none => (Figure.emptyBar, style.set "display" "none")
    | some cd =>
      match cd.points with
      | none => (Figure.emptyBar, style.set "display" "none")
      | some [] => (Figure.emptyBar, style.set "display" "none")
      | some (p :: _) =>
        match p.location with
        | none => (Figure.emptyBar, style.set "display" "none")
        | some iso =>
          match ((summary pyc recs).filter fun r => r.iso_alpha == iso).head? with
          | none => (Figure.emptyBar, style.set "display" "none")
          | some row =>
            match genreData sortDesc recs row.production_countries with
            | [] => (Figure.noDataBar row.production_countries, style.set "display" "block")
            | g :: gs =>
              (Figure.genreBar row.production_countries (g :: gs), style.set "display" "block")

/-! Helper lemmas about stripping. -/

theorem dropWhile_dropWhile (p : α → Bool) (l : List α) :
    (l.dropWhile p).dropWhile p = l.dropWhile p := by
  induction l with
  | nil => rfl
  | cons a t ih =>
    cases h : p a with
    | true => simp only [List.dropWhile_cons, h, if_true]; exact ih
    | false => simp only [List.dropWhile_cons, h]; simp [h]

theorem dropWhile_eq_self_of_pref {p : α → Bool} {l₁ l₂ : List α}
    (hpre : l₁ <+: l₂) (h : l₂.dropWhile p = l₂) : l₁.dropWhile p = l₁ := by
  cases l₁ with
  | nil => rfl
  | cons a t =>
    obtain ⟨t', ht⟩ := hpre
    rw [List.cons_append] at ht
    subst ht
    rw [List.dropWhile_cons] at h ⊢
    cases hp : p a with
    | false => simp
    | true =>
      exfalso
      simp only [hp, if_true] at h
      have hle : (List.dropWhile p (t ++ t')).length ≤ (t ++ t').length :=
        (List.dropWhile_suffix p).sublist.length_le
      rw [h] at hle
      simp at hle

theorem stripChars_stripChars (l : List Char) :
    stripChars (stripChars l) = stripChars l := by
  unfold stripChars
  set d1 := l.dropWhile isPySpace with hd1
  have hrev : (((d1.reverse.dropWhile isPySpace).reverse.dropWhile isPySpace).reverse.dropWhile
      isPySpace).reverse = (d1.reverse.dropWhile isPySpace).reverse := by
    have h1 : (d1.reverse.dropWhile isPySpace).reverse <+: d1 := by
      rw [← List.reverse_suffix]
      rw [List.reverse_reverse]
      exact List.dropWhile_suffix isPySpace
    have h2 : d1.dropWhile isPySpace = d1 := dropWhile_dropWhile isPySpace l
    have h3 : ((d1.reverse.dropWhile isPySpace).reverse).dropWhile isPySpace
        = (d1.reverse.dropWhile isPySpace).reverse := dropWhile_eq_self_of_pref h1 h2
    rw [h3, List.reverse_reverse, dropWhile_dropWhile]
  exact hrev

theorem pyStrip_pyStrip (s : String) : pyStrip (pyStrip s) = pyStrip s := by
  unfold pyStrip
  exact congrArg String.mk (stripChars_stripChars s.data)

theorem length_flatMap_map {α β γ : Type} (f : α → β → γ) (ks : List α) (gs : List β) :
    (ks.flatMap fun c => gs.map (f c)).length = ks.length * gs.length := by
  induction ks with
  | nil => simp
  | cons c ks ih => simp [List.flatMap_cons, ih, Nat.succ_mul, Nat.add_comm]

/-- C1 (amended): a raw row that passes the filters, with k country tokens
and m genre tokens, expands to exactly k times m records, each holding one
country and one genre that are fixed points of stripping; tokens that are
themselves empty (for example from a trailing comma) yield records with
empty country or genre, so non-emptiness per record does not hold. -/
theorem c1_cross_product_expansion (r : RawRow) (cs gs : String)
    (hk : keepRow r = true)
    (hc : r.production_countries = some cs) (hg : r.genres = some gs) :
    (normalizeRows [r]).length = (splitCommaWs cs).length * (splitCommaWs gs).length ∧
    ∀ rec ∈ normalizeRows [r],
      pyStrip rec.production_countries = rec.production_countries ∧
      ∃ g, rec.genres = some g ∧ pyStrip g = g := by
  have hnorm : normalizeRows [r] = expandRow r := by
    simp [normalizeRows, List.filter_cons, hk]
  have hexp : expandRow r = (splitCommaWs cs).flatMap fun c =>
      (splitCommaWs gs).map fun g => ⟨r.title, pyStrip c, some (pyStrip g)⟩ := by
    unfold expandRow
    rw [hc, hg]
  constructor
  · rw [hnorm, hexp]
    exact length_flatMap_map _ _ _
  · intro rec hrec
    rw [hnorm, hexp] at hrec
    obtain ⟨c, _, hrec⟩ := List.mem_flatMap.mp hrec
    obtain ⟨g, _, hrec⟩ := List.mem_map.mp hrec
    subst hrec
    exact ⟨pyStrip_pyStrip c, pyStrip g, rfl, pyStrip_pyStrip g⟩

/-- C1 counterexample: the row with country cell `"France,"` passes all
filters and splits into the two tokens `"France"` and `""`, so the
normalizer emits a record whose country is the empty string, refuting the
claim that every expanded record has a non-empty country. -/
theorem c1_empty_token_cex :
    keepRow ⟨some "A", some "France,", some "Drama"⟩ = true ∧
    (normalizeRows [⟨some "A", some "France,", some "Drama"⟩]).map
      (·.production_countries) = ["France", ""] := by decide

/-- C1 witness: a concrete passing row with two countries and three genres
yields exactly six records, all stripped. -/
theorem c1_cross_product_expansion_witness :
    keepRow ⟨some "A", some "USA, France", some "Drama, War, Crime"⟩ = true ∧
    (⟨some "A", some "USA, France", some "Drama, War, Crime"⟩ : RawRow).production_countries
      = some "USA, France" ∧
    (⟨some "A", some "USA, France", some "Drama, War, Crime"⟩ : RawRow).genres
      = some "Drama, War, Crime" ∧
    ((normalizeRows [⟨some "A", some "USA, France", some "Drama, War, Crime"⟩]).length
        = (splitCommaWs "USA, France").length * (splitCommaWs "Drama, War, Crime").length ∧
      ∀ rec ∈ normalizeRows [⟨some "A", some "USA, France", some "Drama, War, Crime"⟩],
        pyStrip rec.production_countries = rec.production_countries ∧
        ∃ g, rec.genres = some g ∧ pyStrip g = g) :=
  ⟨by decide, rfl, rfl,
    c1_cross_product_expansion ⟨some "A", some "USA, France", some "Drama, War, Crime"⟩
      "USA, France" "Drama, War, Crime" (by decide) rfl rfl⟩

/-- C8: a row whose title is the `'IPL 2025'` sentinel, or whose country
cell is missing or strips to the empty string, is rejected by the filters
and contributes no expanded record at all, whatever its genre cell holds. -/
theorem c8_bad_rows_excluded (r : RawRow)
    (h : r.title = some "IPL 2025" ∨ r.production_countries = none ∨
      (∃ cs, r.production_countries = some cs ∧ pyStrip cs = "")) :
    keepRow r = false ∧
    ∀ pre post : List RawRow,
      normalizeRows (pre ++ r :: post) = normalizeRows (pre ++ post) := by
  have hk : keepRow r = false := by
    rcases h with h | h | ⟨cs, hcs, hstrip⟩
    · simp [keepRow, h]
    · simp [keepRow, h]
    · simp [keepRow, hcs, hstrip]
  refine ⟨hk, fun pre post => ?_⟩
  simp [normalizeRows, List.filter_append, List.filter_cons, hk]

/-- C8 witness: a row whose country cell is whitespace only is dropped even
though it has genres. -/
theorem c8_bad_rows_excluded_witness :
    ((⟨some "X", some "   ", some "Drama, Action"⟩ : RawRow).title = some "IPL 2025" ∨
      (⟨some "X", some "   ", some "Drama, Action"⟩ : RawRow).production_countries = none ∨
      (∃ cs, (⟨some "X", some "   ", some "Drama, Action"⟩ : RawRow).production_countries
          = some cs ∧ pyStrip cs = "")) ∧
    (keepRow ⟨some "X", some "   ", some "Drama, Action"⟩ = false ∧
      ∀ pre post : List RawRow,
        normalizeRows (pre ++ ⟨some "X", some "   ", some "Drama, Action"⟩ :: post)
          = normalizeRows (pre ++ post)) :=
  ⟨Or.inr (Or.inr ⟨"   ", rfl, by decide⟩),
    c8_bad_rows_excluded ⟨some "X", some "   ", some "Drama, Action"⟩
      (Or.inr (Or.inr ⟨"   ", rfl, by decide⟩))⟩

/-- C3: region-code resolution consults the manual alias table first and
falls back to the registry only when the name is absent from the table; in
particular `"South Korea"` resolves to `"KOR"` whatever the registry would
answer. -/
theorem c3_manual_table_precedence (pyc : String → Option String) (name : String) :
    (∀ code, manual_mapping.lookup name = some code →
      get_iso_alpha3_enhanced pyc name = some code) ∧
    (manual_mapping.lookup name = none →
      get_iso_alpha3_enhanced pyc name = pyc name) ∧
    get_iso_alpha3_enhanced pyc "South Korea" = some "KOR" := by
  refine ⟨fun code h => ?_, fun h => ?_, ?_⟩
  · simp [get_iso_alpha3_enhanced, h]
  · simp [get_iso_alpha3_enhanced, h]
  · rfl

/-- C3 witness: instantiated at a registry that adversarially answers
`"PRK"` for every name; the manual table still wins on `"South Korea"`. -/
theorem c3_manual_table_precedence_witness :
    (∀ code, manual_mapping.lookup "South Korea" = some code →
      get_iso_alpha3_enhanced (fun _ => some "PRK") "South Korea" = some code) ∧
    (manual_mapping.lookup "South Korea" = none →
      get_iso_alpha3_enhanced (fun _ => some "PRK") "South Korea"
        = (fun _ => some "PRK") "South Korea") ∧
    get_iso_alpha3_enhanced (fun _ => some "PRK") "South Korea" = some "KOR" :=
  c3_manual_table_precedence (fun _ => some "PRK") "South Korea"

/-! Helper lemmas about the grouped tables. -/

theorem mem_sortedCountries {recs : List MovieRecord} {c : String} :
    c ∈ sortedCountries recs ↔ c ∈ recs.map (·.production_countries) := by
  unfold sortedCountries
  rw [(List.perm_insertionSort strLe _).mem_iff, List.mem_dedup]

theorem nodup_sortedCountries (recs : List MovieRecord) : (sortedCountries recs).Nodup :=
  (List.perm_insertionSort strLe _).symm.nodup (List.nodup_dedup _)

theorem mem_summary {pyc : String → Option String} {recs : List MovieRecord}
    {row : SummaryRow} :
    row ∈ summary pyc recs ↔
      row.production_countries ∈ recs.map (·.production_countries) ∧
      get_iso_alpha3_enhanced pyc row.production_countries = some row.iso_alpha ∧
      row.movie_count = movieCount recs row.production_countries := by
  obtain ⟨rc, rm, ri⟩ := row
  unfold summary
  rw [List.mem_filterMap]
  constructor
  · rintro ⟨c, hc, h⟩
    rcases hiso : get_iso_alpha3_enhanced pyc c with _ | iso
    · simp [hiso] at h
    · simp only [hiso, Option.map_some', Option.some.injEq, SummaryRow.mk.injEq] at h
      obtain ⟨h1, h2, h3⟩ := h
      subst h1; subst h3
      exact ⟨mem_sortedCountries.mp hc, hiso, h2.symm⟩
  · rintro ⟨h1, h2, h3⟩
    refine ⟨rc, mem_sortedCountries.mpr h1, ?_⟩
    rw [h2, Option.map_some']
    simp only [Option.some.injEq, SummaryRow.mk.injEq]
    exact ⟨trivial, h3.symm, trivial⟩

theorem summary_map_countries_aux (pyc : String → Option String) (recs : List MovieRecord)
    (l : List String) :
    (l.filterMap fun c => (get_iso_alpha3_enhanced pyc c).map
        fun iso => SummaryRow.mk c (movieCount recs c) iso).map (·.production_countries)
      = l.filter fun c => (get_iso_alpha3_enhanced pyc c).isSome := by
  induction l with
  | nil => rfl
  | cons a t ih =>
    rw [List.filterMap_cons, List.filter_cons]
    rcases h : get_iso_alpha3_enhanced pyc a with _ | iso <;> simp [h, ih]

theorem summary_countries_nodup (pyc : String → Option String) (recs : List MovieRecord) :
    ((summary pyc recs).map (·.production_countries)).Nodup := by
  unfold summary
  rw [summary_map_countries_aux]
  exact (nodup_sortedCountries recs).filter _

/-- C2 (amended): a CountrySummary row's `movie_count` is the number of
expanded records of that country that carry a non-missing title (pandas
`('title', 'count')` skips nulls), and the log column is the base-10 log of
that count plus one.  The original claim, counting all expanded records of
the country, fails when a title cell is missing — see the counterexample. -/
theorem c2_movie_count (pyc : String → Option String) (rows : List RawRow)
    (row : SummaryRow) (hrow : row ∈ summary pyc (normalizeRows rows)) :
    row.movie_count = ((normalizeRows rows).filter fun rec =>
      rec.production_countries == row.production_countries && rec.title.isSome).length ∧
    Real.logb 10 (row.movie_count + 1) =
      Real.logb 10 (((normalizeRows rows).filter fun rec =>
        rec.production_countries == row.production_countries && rec.title.isSome).length + 1) := by
  have h := (mem_summary.mp hrow).2.2
  exact ⟨h, by rw [h]; rfl⟩

/-- C2 counterexample: a raw row with a missing title cell survives the
filters (pandas keeps NaN under `!= 'IPL 2025'`), so its country has one
expanded record, yet `('title', 'count')` counts zero non-null titles:
CountrySummary reports movie_count 0 for a country with 1 expanded
record. -/
theorem c2_null_title_cex :
    summary (fun _ => none) (normalizeRows [⟨none, some "United States", some "Drama"⟩])
      = [⟨"United States", 0, "USA"⟩] ∧
    ((normalizeRows [⟨none, some "United States", some "Drama"⟩]).filter
      fun rec => rec.production_countries == "United States").length = 1 := by decide

/-- C2 witness: with all titles present the count matches the records. -/
theorem c2_movie_count_witness :
    (⟨"United States", 1, "USA"⟩ : SummaryRow) ∈
      summary (fun _ => none) (normalizeRows [⟨some "A", some "United States", some "Drama"⟩]) ∧
    ((⟨"United States", 1, "USA"⟩ : SummaryRow).movie_count
        = ((normalizeRows [⟨some "A", some "United States", some "Drama"⟩]).filter fun rec =>
            rec.production_countries ==
              (⟨"United States", 1, "USA"⟩ : SummaryRow).production_countries
            && rec.title.isSome).length ∧
      Real.logb 10 ((⟨"United States", 1, "USA"⟩ : SummaryRow).movie_count + 1)
        = Real.logb 10
            (((normalizeRows [⟨some "A", some "United States", some "Drama"⟩]).filter fun rec =>
              rec.production_countries ==
                (⟨"United States", 1, "USA"⟩ : SummaryRow).production_countries
              && rec.title.isSome).length + 1)) :=
  ⟨by decide, c2_movie_count (fun _ => none)
    [⟨some "A", some "United States", some "Drama"⟩] ⟨"United States", 1, "USA"⟩ (by decide)⟩

/-- C6: a country whose name resolves to no region code has no row in
CountrySummary, while each of its (country, genre) pairs still has a
CountryGenreCount row with a positive count. -/
theorem c6_unresolved_country (pyc : String → Option String) (recs : List MovieRecord)
    (c : String) (h : get_iso_alpha3_enhanced pyc c = none) :
    (∀ row ∈ summary pyc recs, row.production_countries ≠ c) ∧
    (∀ rec ∈ recs, rec.production_countries = c → ∀ g, rec.genres = some g →
      ∃ gc ∈ country_genre recs,
        gc.production_countries = c ∧ gc.genres = g ∧ 1 ≤ gc.count) := by
  constructor
  · intro row hrow hc
    have h2 := (mem_summary.mp hrow).2.1
    rw [hc, h] at h2
    cases h2
  · intro rec hrec hc g hg
    have hpair : (c, g) ∈ genrePairs recs := by
      refine List.mem_filterMap.mpr ⟨rec, hrec, ?_⟩
      rw [hg, hc]
      rfl
    have hkey : (c, g) ∈ sortedGenreKeys recs := by
      unfold sortedGenreKeys
      rw [(List.perm_insertionSort pairLe _).mem_iff, List.mem_dedup]
      exact hpair
    exact ⟨⟨c, g, (genrePairs recs).count (c, g)⟩,
      List.mem_map_of_mem _ hkey, rfl, rfl, List.count_pos_iff.mpr hpair⟩

/-- C6 witness: a fictional country unknown to the registry has no summary
row but keeps its genre row. -/
theorem c6_unresolved_country_witness :
    get_iso_alpha3_enhanced (fun _ => none) "Atlantis" = none ∧
    ((∀ row ∈ summary (fun _ => none) [(⟨some "A", "Atlantis", some "Drama"⟩ : MovieRecord)],
        row.production_countries ≠ "Atlantis") ∧
      (∀ rec ∈ [(⟨some "A", "Atlantis", some "Drama"⟩ : MovieRecord)],
        rec.production_countries = "Atlantis" → ∀ g, rec.genres = some g →
        ∃ gc ∈ country_genre [(⟨some "A", "Atlantis", some "Drama"⟩ : MovieRecord)],
          gc.production_countries = "Atlantis" ∧ gc.genres = g ∧ 1 ≤ gc.count)) :=
  ⟨by decide, c6_unresolved_country (fun _ => none)
    [⟨some "A", "Atlantis", some "Drama"⟩] "Atlantis" (by decide)⟩

/-! Helper lemmas about styles and the update handler. -/

theorem lookup_filter_ne {k d : String} (h : k ≠ d) (l : List (String × String)) :
    (l.filter fun p => p.1 != d).lookup k = l.lookup k := by
  induction l with
  | nil => rfl
  | cons e t ih =>
    obtain ⟨e1, e2⟩ := e
    rw [List.filter_cons]
    by_cases he : e1 = d
    · subst he
      have hk : (k == e1) = false := beq_eq_false_iff_ne.mpr h
      simp only [bne_self_eq_false, Bool.false_eq_true, if_false, List.lookup_cons, hk]
      exact ih
    · have hkeep : ((e1, e2).1 != d) = true := bne_iff_ne.mpr he
      simp only [hkeep, if_true, List.lookup_cons]
      cases hk : k == e1 with
      | true => rfl
      | false => exact ih

theorem style_get_set_ne (s : Style) (k v d : String) (h : d ≠ k) :
    (s.set k v).get d = s.get d := by
  unfold Style.set Style.get
  simp only [List.lookup_cons, beq_eq_false_iff_ne.mpr h]
  exact lookup_filter_ne h s.entries

theorem style_get_set_self (s : Style) (k v : String) : (s.set k v).get k = some v := by
  unfold Style.set Style.get
  simp [List.lookup_cons]

theorem update_select_eq (sortDesc : List (String × Nat) → List (String × Nat))
    (pyc : String → Option String) (recs : List MovieRecord) (iso : String)
    (rest : List Point) (s : Style) :
    update_genre_popup sortDesc pyc recs false (some ⟨some (⟨some iso⟩ :: rest)⟩) (some s)
      = match ((summary pyc recs).filter fun r => r.iso_alpha == iso).head? with
        | none => (Figure.emptyBar, s.set "display" "none")
        | some row =>
          match genreData sortDesc recs row.production_countries with
          | [] => (Figure.noDataBar row.production_countries, s.set "display" "block")
          | g :: gs =>
            (Figure.genreBar row.production_countries (g :: gs),
              s.set "display" "block") := rfl

theorem update_select_found (sortDesc : List (String × Nat) → List (String × Nat))
    (pyc : String → Option String) (recs : List MovieRecord) (iso : String)
    (rest : List Point) (s : Style) (row : SummaryRow)
    (h : ((summary pyc recs).filter fun r => r.iso_alpha == iso).head? = some row) :
    update_genre_popup sortDesc pyc recs false (some ⟨some (⟨some iso⟩ :: rest)⟩) (some s)
      = match genreData sortDesc recs row.production_countries with
        | [] => (Figure.noDataBar row.production_countries, s.set "display" "block")
        | g :: gs =>
          (Figure.genreBar row.production_countries (g :: gs),
            s.set "display" "block") := by
  rw [update_select_eq, h]

theorem update_select_missing (sortDesc : List (String × Nat) → List (String × Nat))
    (pyc : String → Option String) (recs : List MovieRecord) (iso : String)
    (rest : List Point) (s : Style)
    (h : ((summary pyc recs).filter fun r => r.iso_alpha == iso).head? = none) :
    update_genre_popup sortDesc pyc recs false (some ⟨some (⟨some iso⟩ :: rest)⟩) (some s)
      = (Figure.emptyBar, s.set "display" "none") := by
  rw [update_select_eq, h]

theorem update_style_shape (sortDesc : List (String × Nat) → List (String × Nat))
    (pyc : String → Option String) (recs : List MovieRecord) (trig : Bool)
    (cd : Option ClickData) (s : Style) :
    ∃ v, (update_genre_popup sortDesc pyc recs trig cd (some s)).2 = s.set "display" v := by
  cases trig with
  | true => exact ⟨"none", rfl⟩
  | false =>
    cases cd with
    | none => exact ⟨"none", rfl⟩
    | some c =>
      obtain ⟨pts⟩ := c
      cases pts with
      | none => exact ⟨"none", rfl⟩
      | some l =>
        cases l with
        | nil => exact ⟨"none", rfl⟩
        | cons p rest =>
          obtain ⟨loc⟩ := p
          cases loc with
          | none => exact ⟨"none", rfl⟩
          | some iso =>
            rw [update_select_eq]
            cases ((summary pyc recs).filter fun r => r.iso_alpha == iso).head? with
            | none => exact ⟨"none", rfl⟩
            | some row =>
              dsimp only
              cases genreData sortDesc recs row.production_countries with
              | nil => exact ⟨"block", rfl⟩
              | cons g gs => exact ⟨"block", rfl⟩

/-- C9: for every event and incoming style, the style the handler returns
agrees with the incoming style on every key other than `'display'`; the
handler writes only into a deep copy, which value semantics renders as the
incoming style being returned untouched. -/
theorem c9_style_preserved (sortDesc : List (String × Nat) → List (String × Nat))
    (pyc : String → Option String) (recs : List MovieRecord) (trig : Bool)
    (cd : Option ClickData) (s : Style) (k : String) (hk : k ≠ "display") :
    ((update_genre_popup sortDesc pyc recs trig cd (some s)).2).get k = s.get k := by
  obtain ⟨v, hv⟩ := update_style_shape sortDesc pyc recs trig cd s
  rw [hv]
  exact style_get_set_ne s "display" v k hk

/-- C9 witness: the `'top'` key survives a close event unchanged. -/
theorem c9_style_preserved_witness :
    "top" ≠ "display" ∧
    ((update_genre_popup (fun l => l) (fun _ => none) [] true none
        (some ⟨[("top", "120px"), ("display", "block")]⟩)).2).get "top"
      = (⟨[("top", "120px"), ("display", "block")]⟩ : Style).get "top" :=
  ⟨by decide, c9_style_preserved (fun l => l) (fun _ => none) [] true none
    ⟨[("top", "120px"), ("display", "block")]⟩ "top" (by decide)⟩

/-- C5: a close event, a click payload with missing or empty points, and a
click on a region code matching no CountrySummary row all return the same
hidden PopupState — the blank figure with `display` set to `"none"` —
whatever the prior panel state. -/
theorem c5_hide_paths (sortDesc : List (String × Nat) → List (String × Nat))
    (pyc : String → Option String) (recs : List MovieRecord) (s : Style)
    (trig : Bool) (cd : Option ClickData)
    (h : trig = true ∨ cd = none ∨
      (∃ c, cd = some c ∧ (c.points = none ∨ c.points = some [])) ∨
      (∃ c p ps iso, cd = some c ∧ c.points = some (p :: ps) ∧ p.location = some iso ∧
        ∀ row ∈ summary pyc recs, row.iso_alpha ≠ iso)) :
    update_genre_popup sortDesc pyc recs trig cd (some s)
      = (Figure.emptyBar, s.set "display" "none") ∧
    popupVisible (update_genre_popup sortDesc pyc recs trig cd (some s)).2 = false := by
  have hvis : popupVisible (s.set "display" "none") = false := by
    unfold popupVisible
    rw [style_get_set_self]
    rfl
  have heq : update_genre_popup sortDesc pyc recs trig cd (some s)
      = (Figure.emptyBar, s.set "display" "none") := by
    cases trig with
    | true => rfl
    | false =>
      rcases h with htr | rfl | ⟨c, rfl, hc | hc⟩ | ⟨c, p, ps, iso, rfl, hpts, hloc, hiso⟩
      · exact absurd htr (by decide)
      · rfl
      · obtain ⟨pts⟩ := c
        cases hc
        rfl
      · obtain ⟨pts⟩ := c
        cases hc
        rfl
      · obtain ⟨pts⟩ := c
        obtain ⟨loc⟩ := p
        cases hpts
        cases hloc
        have hnil : (summary pyc recs).filter (fun r => r.iso_alpha == iso) = [] :=
          List.filter_eq_nil_iff.mpr fun row hrow => by simpa using hiso row hrow
        exact update_select_missing sortDesc pyc recs iso ps s (by rw [hnil]; rfl)
  refine ⟨heq, ?_⟩
  rw [heq]
  exact hvis

/-- C5 witness: the close event on a visible panel hides it. -/
theorem c5_hide_paths_witness :
    ((true : Bool) = true ∨ (none : Option ClickData) = none ∨
      (∃ c, (none : Option ClickData) = some c ∧ (c.points = none ∨ c.points = some [])) ∨
      (∃ c p ps iso, (none : Option ClickData) = some c ∧ c.points = some (p :: ps) ∧
        p.location = some iso ∧
        ∀ row ∈ summary (fun _ => none) ([] : List MovieRecord), row.iso_alpha ≠ iso)) ∧
    (update_genre_popup (fun l => l) (fun _ => none) [] true none (some defaultStyle)
        = (Figure.emptyBar, defaultStyle.set "display" "none") ∧
      popupVisible (update_genre_popup (fun l => l) (fun _ => none) [] true none
        (some defaultStyle)).2 = false) :=
  ⟨Or.inl rfl,
    c5_hide_paths (fun l => l) (fun _ => none) [] defaultStyle true none (Or.inl rfl)⟩

/-! Sort implementations standing in for the external descending sort. -/

theorem charListLe_total : ∀ as bs : List Char,
    charListLe as bs = true ∨ charListLe bs as = true := by
  intro as
  induction as with
  | nil => intro bs; exact Or.inl rfl
  | cons a as ih =>
    intro bs
    cases bs with
    | nil => exact Or.inr rfl
    | cons b bs =>
      rcases Nat.lt_trichotomy a.toNat b.toNat with h | h | h
      · left
        simp [charListLe, h]
      · have h1 : ¬ a.toNat < b.toNat := by omega
        have h2 : ¬ b.toNat < a.toNat := by omega
        rcases ih bs with hh | hh
        · left
          simp [charListLe, h1, h2, hh]
        · right
          simp [charListLe, h1, h2, hh]
      · right
        simp [charListLe, h]

theorem charListLe_trans : ∀ as bs cs : List Char,
    charListLe as bs = true → charListLe bs cs = true → charListLe as cs = true := by
  intro as
  induction as with
  | nil => intro bs cs _ _; rfl
  | cons a as ih =>
    intro bs cs h1 h2
    cases bs with
    | nil => simp [charListLe] at h1
    | cons b bs =>
      cases cs with
      | nil => simp [charListLe] at h2
      | cons c cs =>
        simp only [charListLe] at h1 h2 ⊢
        by_cases hba : b.toNat < a.toNat
        · rw [if_neg (by omega), if_pos hba] at h1
          exact absurd h1 Bool.false_ne_true
        · by_cases hcb : c.toNat < b.toNat
          · rw [if_neg (by omega), if_pos hcb] at h2
            exact absurd h2 Bool.false_ne_true
          · by_cases hab : a.toNat < b.toNat
            · rw [if_pos (show a.toNat < c.toNat by omega)]
            · by_cases hbc : b.toNat < c.toNat
              · rw [if_pos (show a.toNat < c.toNat by omega)]
              · rw [if_neg hab, if_neg hba] at h1
                rw [if_neg hbc, if_neg hcb] at h2
                rw [if_neg (show ¬ a.toNat < c.toNat by omega),
                  if_neg (show ¬ c.toNat < a.toNat by omega)]
                exact ih bs cs h1 h2

instance : IsTotal (String × Nat) descRel := ⟨fun a b => Nat.le_total b.2 a.2⟩

instance : IsTrans (String × Nat) descRel := ⟨fun _ _ _ h1 h2 => Nat.le_trans h2 h1⟩

/-- The count-descending sort used to instantiate the main theorems: a
stable insertion sort on the count key. -/
def stdSortDesc : List (String × Nat) → List (String × Nat) :=
  List.insertionSort descRel

theorem stdSortDesc_valid : SortValid stdSortDesc := fun l =>
  ⟨List.perm_insertionSort descRel l, List.sorted_insertionSort descRel l⟩

/-- Count-descending with ties broken by reversed genre order: another
implementation the unstable default numpy quicksort is allowed to behave
like, differing from the stable tie order exactly on ties. -/
def descTieRevRel (a b : String × Nat) : Prop :=
  b.2 < a.2 ∨ (a.2 = b.2 ∧ strLeB b.1 a.1 = true)

instance : DecidableRel descTieRevRel := fun a b =>
  inferInstanceAs (Decidable (b.2 < a.2 ∨ (a.2 = b.2 ∧ strLeB b.1 a.1 = true)))

instance : IsTotal (String × Nat) descTieRevRel := ⟨fun a b => by
  rcases Nat.lt_trichotomy a.2 b.2 with h | h | h
  · exact Or.inr (Or.inl h)
  · rcases charListLe_total b.1.data a.1.data with hh | hh
    · exact Or.inl (Or.inr ⟨h, hh⟩)
    · exact Or.inr (Or.inr ⟨h.symm, hh⟩)
  · exact Or.inl (Or.inl h)⟩

instance : IsTrans (String × Nat) descTieRevRel := ⟨fun a b c h1 h2 => by
  rcases h1 with h1 | ⟨he1, hs1⟩ <;> rcases h2 with h2 | ⟨he2, hs2⟩
  · exact Or.inl (by omega)
  · exact Or.inl (by omega)
  · exact Or.inl (by omega)
  · exact Or.inr ⟨by omega, charListLe_trans _ _ _ hs2 hs1⟩⟩

/-- The reversed-tie descending sort. -/
def badSortDesc : List (String × Nat) → List (String × Nat) :=
  List.insertionSort descTieRevRel

theorem badSortDesc_valid : SortValid badSortDesc := fun l =>
  ⟨List.perm_insertionSort descTieRevRel l,
    (List.sorted_insertionSort descTieRevRel l).imp fun h => by
      rcases h with h | ⟨he, _⟩
      · exact Nat.le_of_lt h
      · exact Nat.le_of_eq he.symm⟩

/-! Helper lemmas about the per-country genre table. -/

theorem mem_sortedGenreKeys {recs : List MovieRecord} {p : String × String} :
    p ∈ sortedGenreKeys recs ↔ p ∈ genrePairs recs := by
  unfold sortedGenreKeys
  rw [(List.perm_insertionSort pairLe _).mem_iff, List.mem_dedup]

theorem nodup_sortedGenreKeys (recs : List MovieRecord) : (sortedGenreKeys recs).Nodup :=
  (List.perm_insertionSort pairLe _).symm.nodup (List.nodup_dedup _)

theorem genreRowsFor_eq (recs : List MovieRecord) (c : String) :
    genreRowsFor recs c
      = ((sortedGenreKeys recs).filter fun p => p.1 == c).map
          fun p => ⟨p.1, p.2, (genrePairs recs).count p⟩ := by
  unfold genreRowsFor country_genre
  rw [List.filter_map]
  rfl

theorem nodup_genres_rows (recs : List MovieRecord) (c : String) :
    ((genreRowsFor recs c).map (·.genres)).Nodup := by
  rw [genreRowsFor_eq, List.map_map]
  have hn : ((sortedGenreKeys recs).filter fun p => p.1 == c).Nodup :=
    (nodup_sortedGenreKeys recs).filter _
  refine List.Nodup.map_on ?_ hn
  intro x hx y hy hxy
  have hx1 : x.1 = c := by simpa using (List.mem_filter.mp hx).2
  have hy1 : y.1 = c := by simpa using (List.mem_filter.mp hy).2
  have hxy2 : x.2 = y.2 := hxy
  exact Prod.ext (hx1.trans hy1.symm) hxy2

theorem length_groupedGenres (recs : List MovieRecord) (c : String) :
    (groupedGenres recs c).length = (genreRowsFor recs c).length := by
  unfold groupedGenres
  rw [List.length_map, (List.perm_insertionSort strLe _).length_eq,
    List.dedup_eq_self.mpr (nodup_genres_rows recs c), List.length_map]

theorem filter_key_eq_single {α β : Type} [DecidableEq β] (f : α → β) :
    ∀ l : List α, (l.map f).Nodup → ∀ a ∈ l, l.filter (fun x => f x == f a) = [a] := by
  intro l
  induction l with
  | nil => intro _ a ha; cases ha
  | cons b t ih =>
    intro hn a ha
    rw [List.map_cons, List.nodup_cons] at hn
    rcases List.mem_cons.mp ha with rfl | hat
    · rw [List.filter_cons, if_pos (by simp)]
      have hnil : t.filter (fun x => f x == f a) = [] := by
        refine List.filter_eq_nil_iff.mpr fun x hx hfx => ?_
        have hfeq : f x = f a := by simpa using hfx
        exact hn.1 (hfeq ▸ List.mem_map_of_mem f hx)
      rw [hnil]
    · rw [List.filter_cons]
      have hfb : ¬ (f b == f a) = true := by
        intro hbeq
        have heq : f b = f a := by simpa using hbeq
        exact hn.1 (heq ▸ List.mem_map_of_mem f hat)
      rw [if_neg hfb]
      exact ih hn.2 a hat

theorem mem_groupedGenres {recs : List MovieRecord} {c : String} {e : String × Nat}
    (he : e ∈ groupedGenres recs c) :
    ∃ gc ∈ genreRowsFor recs c, gc.genres = e.1 ∧ gc.count = e.2 := by
  unfold groupedGenres at he
  obtain ⟨g, hg, hge⟩ := List.mem_map.mp he
  have hg' : g ∈ ((genreRowsFor recs c).map (·.genres)).dedup :=
    ((List.perm_insertionSort strLe _).mem_iff).mp hg
  obtain ⟨gc, hgc, hggc⟩ := List.mem_map.mp (List.mem_dedup.mp hg')
  subst hggc
  subst hge
  have hfil : (genreRowsFor recs c).filter (fun x => x.genres == gc.genres) = [gc] :=
    filter_key_eq_single (·.genres) (genreRowsFor recs c) (nodup_genres_rows recs c) gc hgc
  refine ⟨gc, hgc, rfl, ?_⟩
  dsimp only
  rw [hfil]
  simp

/-- C4 (amended): on a select of a region code matching a summary row, the
popup's top-genre table has at most ten entries, is sorted by count
descending, and has exactly ten entries when the selected country has at
least ten CountryGenreCount rows (one per distinct genre).  The order of
entries with tied counts is left unspecified: `sort_values` runs with
numpy's default quicksort, which guarantees no stable tie-breaking — see
the counterexample. -/
theorem c4_top_genres_bounds (sortDesc : List (String × Nat) → List (String × Nat))
    (pyc : String → Option String) (recs : List MovieRecord) (s : Style) (iso : String)
    (rest : List Point) (row : SummaryRow) (hsort : SortValid sortDesc)
    (hrow : ((summary pyc recs).filter fun r => r.iso_alpha == iso).head? = some row) :
    (figTopGenres (update_genre_popup sortDesc pyc recs false
        (some ⟨some (⟨some iso⟩ :: rest)⟩) (some s)).1).length ≤ 10 ∧
    List.Sorted descRel (figTopGenres (update_genre_popup sortDesc pyc recs false
        (some ⟨some (⟨some iso⟩ :: rest)⟩) (some s)).1) ∧
    (10 ≤ (genreRowsFor recs row.production_countries).length →
      (figTopGenres (update_genre_popup sortDesc pyc recs false
        (some ⟨some (⟨some iso⟩ :: rest)⟩) (some s)).1).length = 10) := by
  have heq := update_select_found sortDesc pyc recs iso rest s row hrow
  have hfig : figTopGenres (update_genre_popup sortDesc pyc recs false
      (some ⟨some (⟨some iso⟩ :: rest)⟩) (some s)).1
      = genreData sortDesc recs row.production_countries := by
    rw [heq]
    cases genreData sortDesc recs row.production_countries with
    | nil => rfl
    | cons g gs => rfl
  rw [hfig]
  have hlen : (sortDesc (groupedGenres recs row.production_countries)).length
      = (genreRowsFor recs row.production_countries).length := by
    rw [(hsort _).1.length_eq, length_groupedGenres]
  refine ⟨?_, ?_, fun h10 => ?_⟩
  · unfold genreData
    rw [List.length_take]
    exact Nat.min_le_left _ _
  · exact List.Pairwise.sublist (List.take_sublist 10 _) (hsort _).2
  · unfold genreData
    rw [List.length_take, hlen]
    exact inf_eq_left.mpr h10

/-- C4 counterexample: the reversed-tie descending sort is a legal
behaviour of the unstable default quicksort (it is a valid descending
sort), yet on a country with two genres of equal count the popup emits the
ties in the reverse of the original grouping order, refuting the stated
stable tie-break. -/
theorem c4_unstable_tie_cex :
    SortValid badSortDesc ∧
    groupedGenres (normalizeRows [⟨some "A", some "United States", some "Action"⟩,
      ⟨some "B", some "United States", some "Comedy"⟩]) "United States"
      = [("Action", 1), ("Comedy", 1)] ∧
    figTopGenres (update_genre_popup badSortDesc (fun _ => none)
      (normalizeRows [⟨some "A", some "United States", some "Action"⟩,
        ⟨some "B", some "United States", some "Comedy"⟩])
      false (some ⟨some [⟨some "USA"⟩]⟩) (some defaultStyle)).1
      = [("Comedy", 1), ("Action", 1)] :=
  ⟨badSortDesc_valid, by decide, by decide⟩

/-- C7: a select on a region code whose summary row's country has no
CountryGenreCount rows shows the panel (`display: block`) with the
placeholder figure and an empty top-genre table — unlike the
unknown-region case, which hides the panel. -/
theorem c7_empty_filter_popup (sortDesc : List (String × Nat) → List (String × Nat))
    (pyc : String → Option String) (recs : List MovieRecord) (s : Style)
    (iso : String) (rest : List Point) (row : SummaryRow)
    (hsort : SortValid sortDesc)
    (hrow : ((summary pyc recs).filter fun r => r.iso_alpha == iso).head? = some row)
    (hempty : genreRowsFor recs row.production_countries = []) :
    update_genre_popup sortDesc pyc recs false (some ⟨some (⟨some iso⟩ :: rest)⟩) (some s)
      = (Figure.noDataBar row.production_countries, s.set "display" "block") ∧
    popupVisible (update_genre_popup sortDesc pyc recs false
      (some ⟨some (⟨some iso⟩ :: rest)⟩) (some s)).2 = true ∧
    figCountry (update_genre_popup sortDesc pyc recs false
      (some ⟨some (⟨some iso⟩ :: rest)⟩) (some s)).1 = some row.production_countries ∧
    figTopGenres (update_genre_popup sortDesc pyc recs false
      (some ⟨some (⟨some iso⟩ :: rest)⟩) (some s)).1 = [] := by
  have hgd : genreData sortDesc recs row.production_countries = [] := by
    unfold genreData
    have hgr : groupedGenres recs row.production_countries = [] := by
      unfold groupedGenres
      rw [hempty]
      rfl
    rw [hgr, (hsort []).1.eq_nil]
    rfl
  have heq := update_select_found sortDesc pyc recs iso rest s row hrow
  rw [hgd] at heq
  refine ⟨heq, ?_, ?_, ?_⟩ <;> rw [heq]
  · unfold popupVisible
    rw [style_get_set_self]
    rfl
  · rfl
  · rfl

/-- C10: two distinct country names resolving to the same region code keep
separate CountrySummary rows with their own counts (country names are
never merged), and a select on that code resolves only the first matching
row: the popup names that row's country and every top-genre entry comes
from that single country name's CountryGenreCount rows. -/
theorem c10_shared_code_rows (sortDesc : List (String × Nat) → List (String × Nat))
    (pyc : String → Option String) (recs : List MovieRecord) (s : Style)
    (c1 c2 code : String) (rest : List Point) (r1 : SummaryRow) (rs : List SummaryRow)
    (hsort : SortValid sortDesc)
    (h1 : c1 ∈ recs.map (·.production_countries))
    (h2 : c2 ∈ recs.map (·.production_countries))
    (_hne : c1 ≠ c2)
    (hi1 : get_iso_alpha3_enhanced pyc c1 = some code)
    (hi2 : get_iso_alpha3_enhanced pyc c2 = some code)
    (hfil : (summary pyc recs).filter (fun r => r.iso_alpha == code) = r1 :: rs) :
    (⟨c1, movieCount recs c1, code⟩ : SummaryRow) ∈ summary pyc recs ∧
    (⟨c2, movieCount recs c2, code⟩ : SummaryRow) ∈ summary pyc recs ∧
    ((summary pyc recs).map (·.production_countries)).Nodup ∧
    figCountry (update_genre_popup sortDesc pyc recs false
      (some ⟨some (⟨some code⟩ :: rest)⟩) (some s)).1 = some r1.production_countries ∧
    ∀ e ∈ figTopGenres (update_genre_popup sortDesc pyc recs false
        (some ⟨some (⟨some code⟩ :: rest)⟩) (some s)).1,
      ∃ gc ∈ country_genre recs,
        gc.production_countries = r1.production_countries ∧
        gc.genres = e.1 ∧ gc.count = e.2 := by
  have hhead : ((summary pyc recs).filter fun r => r.iso_alpha == code).head? = some r1 := by
    rw [hfil]
    rfl
  have heq := update_select_found sortDesc pyc recs code rest s r1 hhead
  have hfig : figTopGenres (update_genre_popup sortDesc pyc recs false
      (some ⟨some (⟨some code⟩ :: rest)⟩) (some s)).1
      = genreData sortDesc recs r1.production_countries := by
    rw [heq]
    cases genreData sortDesc recs r1.production_countries with
    | nil => rfl
    | cons g gs => rfl
  have hcountry : figCountry (update_genre_popup sortDesc pyc recs false
      (some ⟨some (⟨some code⟩ :: rest)⟩) (some s)).1 = some r1.production_countries := by
    rw [heq]
    cases genreData sortDesc recs r1.production_countries with
    | nil => rfl
    | cons g gs => rfl
  refine ⟨mem_summary.mpr ⟨h1, hi1, rfl⟩, mem_summary.mpr ⟨h2, hi2, rfl⟩,
    summary_countries_nodup pyc recs, hcountry, ?_⟩
  intro e he
  rw [hfig] at he
  unfold genreData at he
  have he1 : e ∈ sortDesc (groupedGenres recs r1.production_countries) :=
    List.mem_of_mem_take he
  have he2 : e ∈ groupedGenres recs r1.production_countries :=
    ((hsort _).1.mem_iff).mp he1
  obtain ⟨gc, hgc, hg1, hg2⟩ := mem_groupedGenres he2
  refine ⟨gc, (List.mem_filter.mp hgc).1, ?_, hg1, hg2⟩
  simpa using (List.mem_filter.mp hgc).2

/-- C4 witness: a country with eleven distinct genres yields exactly ten
entries, sorted by count descending. -/
theorem c4_top_genres_bounds_witness :
    SortValid stdSortDesc ∧
    ((summary (fun _ => none) (normalizeRows [⟨some "A", some "United States",
        some "G01, G02, G03, G04, G05, G06, G07, G08, G09, G10, G11"⟩])).filter
      fun r => r.iso_alpha == "USA").head? = some ⟨"United States", 11, "USA"⟩ ∧
    ((figTopGenres (update_genre_popup stdSortDesc (fun _ => none)
        (normalizeRows [⟨some "A", some "United States",
          some "G01, G02, G03, G04, G05, G06, G07, G08, G09, G10, G11"⟩]) false
        (some ⟨some [⟨some "USA"⟩]⟩) (some defaultStyle)).1).length ≤ 10 ∧
      List.Sorted descRel (figTopGenres (update_genre_popup stdSortDesc (fun _ => none)
        (normalizeRows [⟨some "A", some "United States",
          some "G01, G02, G03, G04, G05, G06, G07, G08, G09, G10, G11"⟩]) false
        (some ⟨some [⟨some "USA"⟩]⟩) (some defaultStyle)).1) ∧
      (10 ≤ (genreRowsFor (normalizeRows [⟨some "A", some "United States",
          some "G01, G02, G03, G04, G05, G06, G07, G08, G09, G10, G11"⟩])
          (⟨"United States", 11, "USA"⟩ : SummaryRow).production_countries).length →
        (figTopGenres (update_genre_popup stdSortDesc (fun _ => none)
          (normalizeRows [⟨some "A", some "United States",
            some "G01, G02, G03, G04, G05, G06, G07, G08, G09, G10, G11"⟩]) false
          (some ⟨some [⟨some "USA"⟩]⟩) (some defaultStyle)).1).length = 10)) :=
  ⟨stdSortDesc_valid, by decide,
    c4_top_genres_bounds stdSortDesc (fun _ => none)
      (normalizeRows [⟨some "A", some "United States",
        some "G01, G02, G03, G04, G05, G06, G07, G08, G09, G10, G11"⟩])
      defaultStyle "USA" [] ⟨"United States", 11, "USA"⟩ stdSortDesc_valid (by decide)⟩

/-- C7 witness: a country whose only record has a missing genre cell is in
CountrySummary but has no CountryGenreCount row; selecting it shows the
placeholder panel. -/
theorem c7_empty_filter_popup_witness :
    SortValid stdSortDesc ∧
    ((summary (fun _ => none) (normalizeRows [⟨some "A", some "United States", none⟩])).filter
      fun r => r.iso_alpha == "USA").head? = some ⟨"United States", 1, "USA"⟩ ∧
    genreRowsFor (normalizeRows [⟨some "A", some "United States", none⟩])
      (⟨"United States", 1, "USA"⟩ : SummaryRow).production_countries = [] ∧
    (update_genre_popup stdSortDesc (fun _ => none)
        (normalizeRows [⟨some "A", some "United States", none⟩]) false
        (some ⟨some [⟨some "USA"⟩]⟩) (some defaultStyle)
      = (Figure.noDataBar (⟨"United States", 1, "USA"⟩ : SummaryRow).production_countries,
          defaultStyle.set "display" "block") ∧
      popupVisible (update_genre_popup stdSortDesc (fun _ => none)
        (normalizeRows [⟨some "A", some "United States", none⟩]) false
        (some ⟨some [⟨some "USA"⟩]⟩) (some defaultStyle)).2 = true ∧
      figCountry (update_genre_popup stdSortDesc (fun _ => none)
        (normalizeRows [⟨some "A", some "United States", none⟩]) false
        (some ⟨some [⟨some "USA"⟩]⟩) (some defaultStyle)).1
        = some (⟨"United States", 1, "USA"⟩ : SummaryRow).production_countries ∧
      figTopGenres (update_genre_popup stdSortDesc (fun _ => none)
        (normalizeRows [⟨some "A", some "United States", none⟩]) false
        (some ⟨some [⟨some "USA"⟩]⟩) (some defaultStyle)).1 = []) :=
  ⟨stdSortDesc_valid, by decide, by decide,
    c7_empty_filter_popup stdSortDesc (fun _ => none)
      (normalizeRows [⟨some "A", some "United States", none⟩]) defaultStyle "USA" []
      ⟨"United States", 1, "USA"⟩ stdSortDesc_valid (by decide) (by decide)⟩

/-- C10 witness: `"United States"` and `"United States of America"` both
resolve to `"USA"`, keep separate summary rows, and a click on `"USA"`
resolves the first row only. -/
theorem c10_shared_code_rows_witness :
    SortValid stdSortDesc ∧
    "United States" ∈ (normalizeRows [⟨some "A", some "United States", some "Action"⟩,
      ⟨some "B", some "United States of America", some "Comedy"⟩]).map
        (·.production_countries) ∧
    "United States of America" ∈ (normalizeRows
      [⟨some "A", some "United States", some "Action"⟩,
        ⟨some "B", some "United States of America", some "Comedy"⟩]).map
        (·.production_countries) ∧
    "United States" ≠ "United States of America" ∧
    get_iso_alpha3_enhanced (fun _ => none) "United States" = some "USA" ∧
    get_iso_alpha3_enhanced (fun _ => none) "United States of America" = some "USA" ∧
    (summary (fun _ => none) (normalizeRows [⟨some "A", some "United States", some "Action"⟩,
      ⟨some "B", some "United States of America", some "Comedy"⟩])).filter
        (fun r => r.iso_alpha == "USA")
      = (⟨"United States", 1, "USA"⟩ : SummaryRow)
          :: [(⟨"United States of America", 1, "USA"⟩ : SummaryRow)] ∧
    ((⟨"United States", movieCount (normalizeRows
        [⟨some "A", some "United States", some "Action"⟩,
          ⟨some "B", some "United States of America", some "Comedy"⟩]) "United States",
        "USA"⟩ : SummaryRow) ∈ summary (fun _ => none)
        (normalizeRows [⟨some "A", some "United States", some "Action"⟩,
          ⟨some "B", some "United States of America", some "Comedy"⟩]) ∧
      (⟨"United States of America", movieCount (normalizeRows
        [⟨some "A", some "United States", some "Action"⟩,
          ⟨some "B", some "United States of America", some "Comedy"⟩])
          "United States of America",
        "USA"⟩ : SummaryRow) ∈ summary (fun _ => none)
        (normalizeRows [⟨some "A", some "United States", some "Action"⟩,
          ⟨some "B", some "United States of America", some "Comedy"⟩]) ∧
      ((summary (fun _ => none) (normalizeRows
        [⟨some "A", some "United States", some "Action"⟩,
          ⟨some "B", some "United States of America", some "Comedy"⟩])).map
        (·.production_countries)).Nodup ∧
      figCountry (update_genre_popup stdSortDesc (fun _ => none)
        (normalizeRows [⟨some "A", some "United States", some "Action"⟩,
          ⟨some "B", some "United States of America", some "Comedy"⟩]) false
        (some ⟨some [⟨some "USA"⟩]⟩) (some defaultStyle)).1
        = some (⟨"United States", 1, "USA"⟩ : SummaryRow).production_countries ∧
      ∀ e ∈ figTopGenres (update_genre_popup stdSortDesc (fun _ => none)
          (normalizeRows [⟨some "A", some "United States", some "Action"⟩,
            ⟨some "B", some "United States of America", some "Comedy"⟩]) false
          (some ⟨some [⟨some "USA"⟩]⟩) (some defaultStyle)).1,
        ∃ gc ∈ country_genre (normalizeRows
          [⟨some "A", some "United States", some "Action"⟩,
            ⟨some "B", some "United States of America", some "Comedy"⟩]),
          gc.production_countries
              = (⟨"United States", 1, "USA"⟩ : SummaryRow).production_countries ∧
          gc.genres = e.1 ∧ gc.count = e.2) :=
  ⟨stdSortDesc_valid, by decide, by decide, by decide, by decide, by decide, by decide,
    c10_shared_code_rows stdSortDesc (fun _ => none)
      (normalizeRows [⟨some "A", some "United States", some "Action"⟩,
        ⟨some "B", some "United States of America", some "Comedy"⟩])
      defaultStyle "United States" "United States of America" "USA" []
      ⟨"United States", 1, "USA"⟩ [⟨"United States of America", 1, "USA"⟩]
      stdSortDesc_valid (by decide) (by decide) (by decide) (by decide) (by decide)
      (by decide)⟩
